import Mathlib

/-!
Verification of the terrain-rendering repository's core subsystems.

The repository's runtime core (node atlas, quadtree traversal, preprocessor)
is referenced from the crate roots (`src/src/lib.rs` declares the modules
`node_atlas`, `quadtree` and `preprocess`; `src/crates/app_plugin/src/lib.rs`
and `src/plugins/app_plugin/src/lib.rs` call into them), but the module
bodies themselves are not part of the provided sources.  Those parts are
modelled from the specification (each such definition is marked
"Modelled from the spec:").  Everything else — the application configuration
constants, the LOD view-distance table, the height curve and the terrain draw
command — is embedded directly from the source files.
-/

set_option maxHeartbeats 1000000

namespace TerrainRendering

/-- A quadtree node identity `(lod, x, y)`: uniquely addresses one quadtree
node at one resolution level. -/
structure NodeId where
  lod : Nat
  x : Nat
  y : Nat
deriving DecidableEq, Repr

/-- Modelled from the spec: the per-slot state of the node atlas,
one of Unloaded, Loading, Loaded, Evictable (§3, §4.3).  The occupied states
carry the NodeId held by the slot. -/
inductive SlotState where
  | Unloaded
  | Loading (n : NodeId)
  | Loaded (n : NodeId)
  | Evictable (n : NodeId)
deriving DecidableEq, Repr

/-- The NodeId occupying a slot in a given state, if any. -/
def SlotState.occupant : SlotState → Option NodeId
  | .Unloaded => none
  | .Loading n => some n
  | .Loaded n => some n
  | .Evictable n => some n

/-- Modelled from the spec: one atlas slot — its lifecycle state together with
the "last-used frame" used for eviction ranking (§3). -/
structure Slot where
  state : SlotState
  lastUsed : Nat
deriving DecidableEq, Repr

/-- Modelled from the spec: the node atlas — a fixed-capacity slot pool, a
queue of deferred (pending) requests, and the current frame counter (§3, §4.3).
The capacity is the length of `slots`, fixed at construction. -/
structure NodeAtlas where
  slots : List Slot
  pending : List NodeId
  frame : Nat
deriving DecidableEq, Repr

namespace NodeAtlas

/-- Modelled from the spec: a freshly constructed atlas of the given capacity —
all slots Unloaded, nothing pending. -/
def new (capacity : Nat) : NodeAtlas :=
  ⟨List.replicate capacity ⟨.Unloaded, 0⟩, [], 0⟩

/-- The slot at index `i` (out-of-range reads as an Unloaded slot). -/
def slotAt (a : NodeAtlas) (i : Nat) : Slot :=
  a.slots.getD i ⟨.Unloaded, 0⟩

/-- The state of slot `i`. -/
def stateAt (a : NodeAtlas) (i : Nat) : SlotState :=
  (a.slotAt i).state

/-- The last-used frame of slot `i`. -/
def lastUsedAt (a : NodeAtlas) (i : Nat) : Nat :=
  (a.slotAt i).lastUsed

/-- The NodeId occupying slot `i`, if any. -/
def occAt (a : NodeAtlas) (i : Nat) : Option NodeId :=
  (a.stateAt i).occupant

/-- The index of the slot currently holding `n`, if any. -/
def findSlotOf (a : NodeAtlas) (n : NodeId) : Option Nat :=
  (List.range a.slots.length).find? (fun i => a.occAt i == some n)

/-- The first free (Unloaded) slot, if any. -/
def freeSlot (a : NodeAtlas) : Option Nat :=
  (List.range a.slots.length).find? (fun i => a.stateAt i == .Unloaded)

/-- Whether slot `i` is marked Evictable. -/
def isEvictableAt (a : NodeAtlas) (i : Nat) : Bool :=
  match a.stateAt i with
  | .Evictable _ => true
  | _ => false

/-- Modelled from the spec: the eviction policy selects, among the occupied
slots marked Evictable, the one with the oldest (minimal) last-used frame
(§4.3). -/
def evictionCandidate (a : NodeAtlas) : Option Nat :=
  ((List.range a.slots.length).filter (fun i => a.isEvictableAt i)).argmin
    (fun i => a.lastUsedAt i)

/-- Replace slot `i` (no-op if out of range). -/
def setSlot (a : NodeAtlas) (i : Nat) (s : Slot) : NodeAtlas :=
  { a with slots := a.slots.set i s }

/-- The outcome of a `request` call: a fresh asynchronous load was issued, the
request was coalesced with existing state, or it was deferred for lack of an
available slot. -/
inductive RequestResult where
  | issued
  | coalesced
  | deferred
deriving DecidableEq, Repr

/-- Modelled from the spec: `request(node_id)` (§4.3).  If the node is already
present (Loaded or Loading) the call returns immediately without issuing a
load; a released (Evictable) node is simply marked Loaded again.  If the node
is absent, a free slot — or, failing that, the eviction candidate — is claimed
and transitions to Loading for `n` (issuing one asynchronous load).  If
neither exists the request is deferred onto the pending queue (coalescing
duplicates), which is the observable capacity-exhaustion condition. -/
def request (a : NodeAtlas) (n : NodeId) : NodeAtlas × RequestResult :=
  match a.findSlotOf n with
  | some i =>
    match a.stateAt i with
    | .Evictable _ => (a.setSlot i ⟨.Loaded n, a.frame⟩, .coalesced)
    | _ => (a, .coalesced)
  | none =>
    match a.freeSlot with
    | some i => (a.setSlot i ⟨.Loading n, a.frame⟩, .issued)
    | none =>
      match a.evictionCandidate with
      | some i => (a.setSlot i ⟨.Loading n, a.frame⟩, .issued)
      | none =>
        if n ∈ a.pending then (a, .deferred)
        else ({ a with pending := a.pending ++ [n] }, .deferred)

/-- Modelled from the spec: `release(node_id)` marks a previously requested
(Loaded) node's slot Evictable; eviction itself stays lazy (§4.3). -/
def release (a : NodeAtlas) (n : NodeId) : NodeAtlas :=
  match a.findSlotOf n with
  | some i =>
    match a.stateAt i with
    | .Loaded _ => a.setSlot i ⟨.Evictable n, a.lastUsedAt i⟩
    | _ => a
  | none => a

/-- The error reported when a load fails because the preprocessed artifact for
the node is missing or corrupt. -/
inductive LoadError where
  | artifactMissing (n : NodeId)
deriving DecidableEq, Repr

/-- Modelled from the spec: completion of the asynchronous load for `n`
(§4.3, §5).  `artifact = none` models a missing/corrupt preprocessed artifact:
the slot reverts to Unloaded and a LoadError is reported to the caller.  A
successful artifact transitions Loading → Loaded.  A completion for a node no
longer Loading (reassigned slot) is ignored. -/
def loadComplete (a : NodeAtlas) (n : NodeId) (artifact : Option Nat) :
    NodeAtlas × Option LoadError :=
  match a.findSlotOf n with
  | some i =>
    match a.stateAt i with
    | .Loading _ =>
      match artifact with
      | some _ => (a.setSlot i ⟨.Loaded n, a.lastUsedAt i⟩, none)
      | none => (a.setSlot i ⟨.Unloaded, a.lastUsedAt i⟩, some (.artifactMissing n))
    | _ => (a, none)
  | none => (a, none)

/-- Modelled from the spec: the monotonically increasing frame counter. -/
def nextFrame (a : NodeAtlas) : NodeAtlas :=
  { a with frame := a.frame + 1 }

/-- Modelled from the spec: `is_ready(node_id)` is true only if Loaded (§4.3). -/
def is_ready (a : NodeAtlas) (n : NodeId) : Bool :=
  match a.findSlotOf n with
  | some i =>
    match a.stateAt i with
    | .Loaded _ => true
    | _ => false
  | none => false

/-- The number of deferred requests — the observable pending count (§4.3). -/
def pendingCount (a : NodeAtlas) : Nat :=
  a.pending.length

/-- The atlas states reachable from a fresh atlas by any sequence of request,
release, load-completion and frame-advance operations. -/
inductive Reachable : NodeAtlas → Prop where
  | init (capacity : Nat) : Reachable (new capacity)
  | request (a : NodeAtlas) (n : NodeId) : Reachable a → Reachable (a.request n).1
  | release (a : NodeAtlas) (n : NodeId) : Reachable a → Reachable (a.release n)
  | complete (a : NodeAtlas) (n : NodeId) (artifact : Option Nat) :
      Reachable a → Reachable (a.loadComplete n artifact).1
  | frame (a : NodeAtlas) : Reachable a → Reachable a.nextFrame

/-- The occupancy invariant: a NodeId occupies at most one slot. -/
def WF (a : NodeAtlas) : Prop :=
  ∀ i j n, a.occAt i = some n → a.occAt j = some n → i = j


end NodeAtlas

/-- Modelled from the spec: a quadtree node visited by one traversal,
identified by its level and grid position (§4.2).  The level is an integer so
that the property "never recurses below level 0" is meaningful in the model. -/
structure QNode where
  lod : Int
  x : Int
  y : Int
deriving DecidableEq, Repr

/-- Modelled from the spec: one quadtree traversal (§4.2).  `split` is the
distance-based split decision (an arbitrary predicate, covering every viewer
position and configuration); `extraRefine` requests refinement beyond the
distance-based decision and is granted only while the additional-refinement
budget lasts.  A node at level 0 is terminal and is never split further.  The
traversal visits the four children of a split node at the next finer level and
returns every visited node, paired with the number of additional refinements
spent on the path to it.  The function is total (structural descent on the
level), which is the termination part of the traversal contract. -/
def traverse (split extraRefine : QNode → Bool) :
    QNode → Nat → Nat → List (QNode × Nat)
  | q, budget, used =>
    if _h : 0 < q.lod ∧ (split q = true ∨ (extraRefine q = true ∧ 0 < budget)) then
      let budget' := if split q then budget else budget - 1
      let used' := if split q then used else used + 1
      (q, used) ::
        (traverse split extraRefine ⟨q.lod - 1, 2 * q.x, 2 * q.y⟩ budget' used' ++
         traverse split extraRefine ⟨q.lod - 1, 2 * q.x + 1, 2 * q.y⟩ budget' used' ++
         traverse split extraRefine ⟨q.lod - 1, 2 * q.x, 2 * q.y + 1⟩ budget' used' ++
         traverse split extraRefine ⟨q.lod - 1, 2 * q.x + 1, 2 * q.y + 1⟩ budget' used')
    else
      [(q, used)]
termination_by q _ _ => q.lod.toNat
decreasing_by
all_goals simp_wf
all_goals omega

/-- Modelled from the spec: per-attachment static configuration — texture
size and mip level count (§3). -/
structure AttachmentConfig where
  texture_size : Nat
  mip_level_count : Nat
deriving DecidableEq, Repr

/-- Modelled from the spec: the per-terrain configuration relevant to
preprocessing — the finest-level node grid covering the terrain extent and
the attachment (§2, §4.1). -/
structure TerrainConfig where
  nodes_per_side : Nat
  attachment : AttachmentConfig
deriving DecidableEq, Repr

/-- A source raster: world pixel → sample; `none` is a missing or nodata
pixel (a missing source tile reads as nodata, §4.1). -/
abbrev SourceRaster : Type := Int × Int → Option Nat

/-- Modelled from the spec: the on-disk state — the source rasters (read-only
for the preprocessor) and the artifact store keyed by (node, mip level,
pixel) (§3, §6). -/
structure Disk where
  source : SourceRaster
  artifacts : NodeId → Nat → Nat × Nat → Option Nat

/-- Modelled from the spec: nodata and out-of-bounds source pixels are filled
with the format's sentinel (zero for unsigned elevation) (§4.1). -/
def sampleWithSentinel (src : SourceRaster) (p : Int × Int) : Nat :=
  (src p).getD 0

/-- Modelled from the spec: the level-0 image of one finest-level node —
texture_size × texture_size pixels whose window into the world raster starts
half a border before the node's footprint, the border being
(1 <<< mip_level_count) pixels on the finest level (§3, §4.1). -/
def nodeLevel0 (cfg : TerrainConfig) (src : SourceRaster) (nx ny : Nat) :
    Nat × Nat → Nat :=
  fun p =>
    let border : Nat := 1 <<< cfg.attachment.mip_level_count
    let leaf : Nat := cfg.attachment.texture_size - border
    sampleWithSentinel src
      (((nx * leaf : Nat) : Int) + (p.1 : Int) - ((border / 2 : Nat) : Int),
       ((ny * leaf : Nat) : Int) + (p.2 : Int) - ((border / 2 : Nat) : Int))

/-- Modelled from the spec: box-downsampling one mip level into the next
(§4.1). -/
def boxDown (img : Nat × Nat → Nat) : Nat × Nat → Nat :=
  fun p =>
    (img (2 * p.1, 2 * p.2) + img (2 * p.1 + 1, 2 * p.2) +
     img (2 * p.1, 2 * p.2 + 1) + img (2 * p.1 + 1, 2 * p.2 + 1)) / 4

/-- Modelled from the spec: the mip chain of one node — level 0 gathered from
the sources, each coarser level box-downsampled from the previous one (§4.1). -/
def nodeMip (cfg : TerrainConfig) (src : SourceRaster) (nx ny : Nat) :
    Nat → Nat × Nat → Nat
  | 0 => nodeLevel0 cfg src nx ny
  | l + 1 => boxDown (nodeMip cfg src nx ny l)

/-- Modelled from the spec: the artifact store computed from the source
rasters — one fixed-size artifact with its full mip chain per finest-level
node covering the terrain extent (§4.1, §6). -/
def generate (cfg : TerrainConfig) (src : SourceRaster) :
    NodeId → Nat → Nat × Nat → Option Nat :=
  fun node mip p =>
    if node.lod = 0 ∧ node.x < cfg.nodes_per_side ∧ node.y < cfg.nodes_per_side ∧
        mip ≤ cfg.attachment.mip_level_count ∧
        p.1 < cfg.attachment.texture_size >>> mip ∧
        p.2 < cfg.attachment.texture_size >>> mip then
      some (nodeMip cfg src node.x node.y mip p)
    else none

/-- Modelled from the spec: `preprocess(terrain_config)` — a synchronous run
that reads only the source rasters and (re)writes the artifact store
deterministically; the sources are never modified (§4.1). -/
def preprocess (cfg : TerrainConfig) (d : Disk) : Disk :=
  { d with artifacts := generate cfg d.source }

namespace AppConfig

/-- TEXTURE_SIZE from src/crates/app_plugin/src/lib.rs line 28 (a u32; all
values involved stay far below 2^32, so plain Nat arithmetic is exact). -/
def TEXTURE_SIZE : Nat := 512

/-- MIP_LEVEL_COUNT from src/crates/app_plugin/src/lib.rs line 29. -/
def MIP_LEVEL_COUNT : Nat := 4

/-- LOD_COUNT from src/crates/app_plugin/src/lib.rs line 30. -/
def LOD_COUNT : Nat := 16

/-- The border padding on the finest level, `1 << mip_level_count` pixels
(spec §3; the shift as in the source). -/
def finest_border : Nat := 1 <<< MIP_LEVEL_COUNT

/-- `config.leaf_node_size = TEXTURE_SIZE - (1 << MIP_LEVEL_COUNT)` from
`setup` in src/crates/app_plugin/src/lib.rs line 93 (u32 subtraction, no
underflow since 16 ≤ 512). -/
def leaf_node_size : Nat := TEXTURE_SIZE - (1 <<< MIP_LEVEL_COUNT)

/-- `view_distance = 4.0 * config.leaf_node_size as f32` from `setup` in
src/crates/app_plugin/src/lib.rs line 179 (exactly representable, embedded
as a rational). -/
def view_distance : ℚ := 4 * (leaf_node_size : ℚ)

end AppConfig

/-- Entry `i` of `LODData::default().lod_view_distance` from
src/plugins/map_plugin/src/data.rs lines 144-155: the array starts as
[200.0; LOD_LEVELS] and each entry `i` then receives `+ i * 100.0`.
LOD_LEVELS comes from the map plugin's generation module, which is not under
src/, so the table is parametrised by it; the entries are small integers,
exactly representable in f32, embedded as rationals. -/
def lodViewDistanceTable (lodLevels : Nat) : List ℚ :=
  (List.range lodLevels).map (fun (i : Nat) => 200 + (i : ℚ) * 100)

/-- Modelled from the spec: the split-decision threshold scaled by the node's
level — a coarser node covers twice the footprint per level, so its threshold
is proportionally larger (§4.2). -/
def scaledViewDistance (view_distance : ℚ) (level : Nat) : ℚ :=
  view_distance * 2 ^ level

/-- HeightCurve from src/plugins/map_plugin/src/data.rs lines 12-17, its f32
fields embedded as rationals. -/
structure HeightCurve where
  water_level : ℚ
  slope : ℚ
deriving DecidableEq, Repr

/-- Division with the zero-divisor case made an explicit error, so that
"the division by zero is reached" is observable in the embedding. -/
def checkedDiv (a b : ℚ) : Option ℚ :=
  if b = 0 then none else some (a / b)

/-- HeightCurve::evaluate from src/plugins/map_plugin/src/data.rs lines
30-39: inputs below water_level short-circuit to 0.0 before the division;
otherwise (input - water_level) / (1.0 - water_level) is raised to `slope`.
The division is made explicit through `checkedDiv`; `powf` is a parameter
because the guard and the divisor do not depend on it. -/
def HeightCurve.evaluate (powf : ℚ → ℚ → ℚ) (hc : HeightCurve) (input : ℚ) :
    Option ℚ :=
  if input < hc.water_level then some 0
  else
    (checkedDiv (input - hc.water_level) (1 - hc.water_level)).map
      (fun q => powf q hc.slope)

/-- GpuTerrainData from src/src/material.rs lines 36-40: the terrain instance
buffer (handles embedded as numbers) and the instance count. -/
structure GpuTerrainData where
  buffer : Nat
  length : Nat
deriving DecidableEq, Repr

/-- The mesh buffer info consulted by the draw command
(src/src/material.rs lines 214-226): indexed or non-indexed. -/
inductive GpuBufferInfo where
  | indexed (buffer : Nat) (index_count : Nat)
  | nonIndexed (vertex_count : Nat)
deriving DecidableEq, Repr

/-- The mesh's GPU asset as consulted by the draw command. -/
structure GpuMesh where
  vertex_buffer : Nat
  buffer_info : GpuBufferInfo
deriving DecidableEq, Repr

/-- One command recorded on the tracked render pass. -/
inductive PassCmd where
  | setVertexBuffer (slot : Nat) (buffer : Nat)
  | setIndexBuffer (buffer : Nat)
  | drawIndexed (count : Nat) (instances : Nat)
deriving DecidableEq, Repr

/-- The result type of an EntityRenderCommand. -/
inductive RenderCommandResult where
  | Success
  | Failure
deriving DecidableEq, Repr

/-- Whether a pass command is a draw call. -/
def PassCmd.isDraw : PassCmd → Bool
  | .drawIndexed _ _ => true
  | _ => false

/-- Whether a pass command is a draw call instanced over `inst` instances. -/
def PassCmd.isDrawWithInstances (inst : Nat) : PassCmd → Bool
  | .drawIndexed _ k => k == inst
  | _ => false

/-- DrawTerrainCommand::render from src/src/material.rs lines 198-229: looks
up the mesh's GPU asset (`meshes.get(mesh)`; `none` models the asset being
absent from the render assets) and returns Failure before touching the pass
when it is missing; otherwise it binds the mesh vertex buffer to slot 0 and
the terrain instance buffer to slot 1, records one draw call instanced over
`0..terrain_buffer.length` (indexed meshes bind the index buffer first), and
returns Success.  The returned list is the sequence of commands recorded on
the pass. -/
def DrawTerrainCommand.render (gpuMesh : Option GpuMesh)
    (terrain_buffer : GpuTerrainData) : List PassCmd × RenderCommandResult :=
  match gpuMesh with
  | none => ([], .Failure)
  | some gpu_mesh =>
    let binds : List PassCmd :=
      [.setVertexBuffer 0 gpu_mesh.vertex_buffer,
       .setVertexBuffer 1 terrain_buffer.buffer]
    match gpu_mesh.buffer_info with
    | .indexed buffer index_count =>
      (binds ++ [.setIndexBuffer buffer,
        .drawIndexed index_count terrain_buffer.length], .Success)
    | .nonIndexed vertex_count =>
      (binds ++ [.drawIndexed vertex_count terrain_buffer.length], .Success)

namespace NodeAtlas

theorem slotAt_setSlot (a : NodeAtlas) (i j : Nat) (s : Slot) :
    (a.setSlot i s).slotAt j =
      if i = j ∧ i < a.slots.length then s else a.slotAt j := by
  by_cases h1 : i = j
  · subst h1
    by_cases h2 : i < a.slots.length
    · simp [slotAt, setSlot, List.getD_eq_getElem?_getD, List.getElem?_set, h2]
    · simp [slotAt, setSlot, List.getD_eq_getElem?_getD, List.getElem?_set, h2,
        List.getElem?_eq_none (Nat.le_of_not_lt h2)]
  · simp [slotAt, setSlot, List.getD_eq_getElem?_getD, List.getElem?_set, h1]

theorem occAt_setSlot (a : NodeAtlas) (i j : Nat) (s : Slot) :
    (a.setSlot i s).occAt j =
      if i = j ∧ i < a.slots.length then s.state.occupant else a.occAt j := by
  simp only [occAt, stateAt, slotAt_setSlot]
  by_cases h : i = j ∧ i < a.slots.length
  · rw [if_pos h, if_pos h]
  · rw [if_neg h, if_neg h]

theorem slotAt_new (capacity i : Nat) : (new capacity).slotAt i = ⟨.Unloaded, 0⟩ := by
  simp only [slotAt, new, List.getD_eq_getElem?_getD, List.getElem?_replicate]
  by_cases h : i < capacity <;> simp [h]

theorem occAt_new (capacity i : Nat) : (new capacity).occAt i = none := by
  simp [occAt, stateAt, slotAt_new, SlotState.occupant]

theorem occAt_ge (a : NodeAtlas) (i : Nat) (h : a.slots.length ≤ i) :
    a.occAt i = none := by
  simp only [occAt, stateAt, slotAt, List.getD_eq_getElem?_getD,
    List.getElem?_eq_none h]
  rfl

theorem findSlotOf_some {a : NodeAtlas} {n : NodeId} {i : Nat}
    (h : a.findSlotOf n = some i) :
    i < a.slots.length ∧ a.occAt i = some n := by
  refine ⟨List.mem_range.mp (List.mem_of_find?_eq_some h), ?_⟩
  have := List.find?_some h
  simpa using this

theorem findSlotOf_none {a : NodeAtlas} {n : NodeId}
    (h : a.findSlotOf n = none) (i : Nat) : a.occAt i ≠ some n := by
  by_cases hi : i < a.slots.length
  · have := List.find?_eq_none.mp h i (List.mem_range.mpr hi)
    simpa using this
  · rw [occAt_ge a i (Nat.le_of_not_lt hi)]
    simp

theorem findSlotOf_isSome {a : NodeAtlas} {n : NodeId} {i : Nat}
    (h : a.occAt i = some n) : ∃ j, a.findSlotOf n = some j := by
  cases hf : a.findSlotOf n with
  | none => exact absurd h (findSlotOf_none hf i)
  | some j => exact ⟨j, rfl⟩

theorem freeSlot_some {a : NodeAtlas} {i : Nat} (h : a.freeSlot = some i) :
    i < a.slots.length ∧ a.stateAt i = .Unloaded := by
  refine ⟨List.mem_range.mp (List.mem_of_find?_eq_some h), ?_⟩
  have := List.find?_some h
  simpa using this

theorem isEvictableAt_iff (a : NodeAtlas) (i : Nat) :
    a.isEvictableAt i = true ↔ ∃ m, a.stateAt i = .Evictable m := by
  unfold isEvictableAt
  cases h : a.stateAt i <;> simp

theorem isEvictableAt_lt {a : NodeAtlas} {i : Nat}
    (h : a.isEvictableAt i = true) : i < a.slots.length := by
  by_contra hi
  have : a.slotAt i = ⟨.Unloaded, 0⟩ := by
    simp only [slotAt, List.getD_eq_getElem?_getD,
      List.getElem?_eq_none (Nat.le_of_not_lt hi)]
    rfl
  rw [isEvictableAt_iff] at h
  obtain ⟨m, hm⟩ := h
  rw [stateAt, this] at hm
  exact SlotState.noConfusion hm

theorem evictionCandidate_some {a : NodeAtlas} {i : Nat}
    (h : a.evictionCandidate = some i) :
    i < a.slots.length ∧ a.isEvictableAt i = true ∧
      ∀ j, a.isEvictableAt j = true → a.lastUsedAt i ≤ a.lastUsedAt j := by
  have hmem : i ∈ ((List.range a.slots.length).filter (fun k => a.isEvictableAt k)) :=
    List.argmin_mem h
  have hfilter := List.mem_filter.mp hmem
  refine ⟨List.mem_range.mp hfilter.1, hfilter.2, ?_⟩
  intro j hj
  have hjmem : j ∈ ((List.range a.slots.length).filter (fun k => a.isEvictableAt k)) :=
    List.mem_filter.mpr ⟨List.mem_range.mpr (isEvictableAt_lt hj), hj⟩
  exact List.le_of_mem_argmin hjmem h

theorem evictionCandidate_none {a : NodeAtlas}
    (h : a.evictionCandidate = none) (j : Nat) : a.isEvictableAt j ≠ true := by
  intro hj
  have hjmem : j ∈ ((List.range a.slots.length).filter (fun k => a.isEvictableAt k)) :=
    List.mem_filter.mpr ⟨List.mem_range.mpr (isEvictableAt_lt hj), hj⟩
  unfold evictionCandidate at h
  rw [List.argmin_eq_none] at h
  rw [h] at hjmem
  exact List.not_mem_nil j hjmem

theorem WF_setSlot {a : NodeAtlas} (hWF : WF a) (i : Nat) (s : Slot)
    (hc : s.state.occupant = none ∨ s.state.occupant = a.occAt i ∨
      ∃ n, s.state.occupant = some n ∧ ∀ j, a.occAt j ≠ some n) :
    WF (a.setSlot i s) := by
  intro i' j' m h1 h2
  rw [occAt_setSlot] at h1 h2
  by_cases k1 : i = i' ∧ i < a.slots.length <;>
    by_cases k2 : i = j' ∧ i < a.slots.length
  · exact k1.1.symm.trans k2.1
  · rw [if_pos k1] at h1
    rw [if_neg k2] at h2
    rcases hc with hc | hc | ⟨n, hn, hall⟩
    · rw [hc] at h1; exact Option.noConfusion h1
    · rw [hc] at h1
      exact k1.1.symm.trans (hWF i j' m h1 h2)
    · rw [hn] at h1
      exact absurd h2 (Option.some.inj h1 ▸ hall j')
  · rw [if_neg k1] at h1
    rw [if_pos k2] at h2
    rcases hc with hc | hc | ⟨n, hn, hall⟩
    · rw [hc] at h2; exact Option.noConfusion h2
    · rw [hc] at h2
      exact (hWF i' i m h1 h2).trans k2.1
    · rw [hn] at h2
      exact absurd h1 (Option.some.inj h2 ▸ hall i')
  · rw [if_neg k1] at h1
    rw [if_neg k2] at h2
    exact hWF i' j' m h1 h2

theorem WF_pending (a : NodeAtlas) (p : List NodeId) (h : WF a) :
    WF { a with pending := p } := h

theorem WF_frame (a : NodeAtlas) (f : Nat) (h : WF a) :
    WF { a with frame := f } := h

theorem WF_request {a : NodeAtlas} (hWF : WF a) (n : NodeId) :
    WF (a.request n).1 := by
  unfold request
  split
  · rename_i i hf
    split
    · refine WF_setSlot hWF i _ (Or.inr (Or.inl ?_))
      have := (findSlotOf_some hf).2
      simp [SlotState.occupant, this]
    · exact hWF
  · rename_i hf
    split
    · rename_i i _
      exact WF_setSlot hWF i _ (Or.inr (Or.inr ⟨n, rfl, findSlotOf_none hf⟩))
    · split
      · rename_i i _
        exact WF_setSlot hWF i _ (Or.inr (Or.inr ⟨n, rfl, findSlotOf_none hf⟩))
      · split
        · exact hWF
        · exact WF_pending a _ hWF

theorem WF_release {a : NodeAtlas} (hWF : WF a) (n : NodeId) :
    WF (a.release n) := by
  unfold release
  split
  · rename_i i hf
    split
    · refine WF_setSlot hWF i _ (Or.inr (Or.inl ?_))
      have := (findSlotOf_some hf).2
      simp [SlotState.occupant, this]
    · exact hWF
  · exact hWF

theorem WF_loadComplete {a : NodeAtlas} (hWF : WF a) (n : NodeId)
    (artifact : Option Nat) : WF (a.loadComplete n artifact).1 := by
  unfold loadComplete
  split
  · rename_i i hf
    split
    · split
      · refine WF_setSlot hWF i _ (Or.inr (Or.inl ?_))
        have := (findSlotOf_some hf).2
        simp [SlotState.occupant, this]
      · exact WF_setSlot hWF i _ (Or.inl rfl)
    · exact hWF
  · exact hWF

theorem reachable_WF {a : NodeAtlas} (h : Reachable a) : WF a := by
  induction h with
  | init capacity =>
    intro i j m h1 _
    rw [occAt_new] at h1
    exact Option.noConfusion h1
  | request a n _ ih => exact WF_request ih n
  | release a n _ ih => exact WF_release ih n
  | complete a n artifact _ ih => exact WF_loadComplete ih n artifact
  | frame a _ ih => exact WF_frame a _ ih

theorem stateAt_setSlot (a : NodeAtlas) (i j : Nat) (s : Slot) :
    (a.setSlot i s).stateAt j =
      if i = j ∧ i < a.slots.length then s.state else a.stateAt j := by
  simp only [stateAt, slotAt_setSlot]
  by_cases h : i = j ∧ i < a.slots.length
  · rw [if_pos h, if_pos h]
  · rw [if_neg h, if_neg h]

theorem request_eq_free {a : NodeAtlas} {n : NodeId} {i : Nat}
    (hf : a.findSlotOf n = none) (hfree : a.freeSlot = some i) :
    a.request n = (a.setSlot i ⟨.Loading n, a.frame⟩, .issued) := by
  unfold request
  rw [hf, hfree]

theorem request_eq_evict {a : NodeAtlas} {n : NodeId} {i : Nat}
    (hf : a.findSlotOf n = none) (hfree : a.freeSlot = none)
    (hev : a.evictionCandidate = some i) :
    a.request n = (a.setSlot i ⟨.Loading n, a.frame⟩, .issued) := by
  unfold request
  rw [hf, hfree, hev]

theorem request_eq_defer {a : NodeAtlas} {n : NodeId}
    (hf : a.findSlotOf n = none) (hfree : a.freeSlot = none)
    (hev : a.evictionCandidate = none) :
    a.request n =
      (if n ∈ a.pending then (a, .deferred)
       else ({ a with pending := a.pending ++ [n] }, .deferred)) := by
  unfold request
  rw [hf, hfree, hev]

theorem request_eq_loading {a : NodeAtlas} {n m : NodeId} {i : Nat}
    (hf : a.findSlotOf n = some i) (hs : a.stateAt i = .Loading m) :
    a.request n = (a, .coalesced) := by
  unfold request
  rw [hf]
  split
  · rename_i m' hs'
    cases Option.some.inj hs'
    split
    · rename_i k hk
      rw [hs] at hk
      exact SlotState.noConfusion hk
    · rfl
  · rename_i hnone
    exact Option.noConfusion hnone

theorem request_eq_loaded {a : NodeAtlas} {n m : NodeId} {i : Nat}
    (hf : a.findSlotOf n = some i) (hs : a.stateAt i = .Loaded m) :
    a.request n = (a, .coalesced) := by
  unfold request
  rw [hf]
  split
  · rename_i m' hs'
    cases Option.some.inj hs'
    split
    · rename_i k hk
      rw [hs] at hk
      exact SlotState.noConfusion hk
    · rfl
  · rename_i hnone
    exact Option.noConfusion hnone

/-- C1: for every reachable Node Atlas state, every NodeId occupies at most
one slot (no duplicate occupancy), and every slot holds at most one NodeId. -/
theorem nodeAtlas_no_duplicate_occupancy (a : NodeAtlas) (h : Reachable a) :
    (∀ i j n, a.occAt i = some n → a.occAt j = some n → i = j) ∧
    (∀ i n m, a.occAt i = some n → a.occAt i = some m → n = m) := by
  refine ⟨reachable_WF h, fun i n m h1 h2 => ?_⟩
  rw [h1] at h2
  exact Option.some.inj h2

/-- Witness for C1 at the concrete reachable state obtained by one request on
a fresh two-slot atlas. -/
theorem nodeAtlas_no_duplicate_occupancy_witness :
    (∀ i j n, ((NodeAtlas.new 2).request ⟨0, 0, 0⟩).1.occAt i = some n →
        ((NodeAtlas.new 2).request ⟨0, 0, 0⟩).1.occAt j = some n → i = j) ∧
    (∀ i n m, ((NodeAtlas.new 2).request ⟨0, 0, 0⟩).1.occAt i = some n →
        ((NodeAtlas.new 2).request ⟨0, 0, 0⟩).1.occAt i = some m → n = m) :=
  nodeAtlas_no_duplicate_occupancy _ (Reachable.request _ _ (Reachable.init 2))

theorem occAt_of_stateAt_loading {a : NodeAtlas} {i : Nat} {m : NodeId}
    (h : a.stateAt i = .Loading m) : a.occAt i = some m := by
  unfold occAt
  rw [h]
  rfl

theorem stateAt_lt_of_ne {a : NodeAtlas} {i : Nat}
    (h : a.stateAt i ≠ .Unloaded) : i < a.slots.length := by
  by_contra hx
  have hd : a.slotAt i = ⟨.Unloaded, 0⟩ := by
    simp only [slotAt, List.getD_eq_getElem?_getD,
      List.getElem?_eq_none (Nat.le_of_not_lt hx)]
    rfl
  rw [stateAt, hd] at h
  exact h rfl

/-- C2: for a NodeId not yet present in a reachable atlas with an available
slot, the first `request` issues exactly one asynchronous load; a second
`request` in succession (no intervening completion or eviction) is coalesced:
it issues no load and leaves the atlas state unchanged; and at most one load
per NodeId is outstanding in the resulting state. -/
theorem request_twice_coalesced (a : NodeAtlas) (n : NodeId)
    (h : Reachable a) (habs : a.findSlotOf n = none)
    (havail : a.freeSlot ≠ none ∨ a.evictionCandidate ≠ none) :
    (a.request n).2 = .issued ∧
    ((a.request n).1.request n).1 = (a.request n).1 ∧
    ((a.request n).1.request n).2 = .coalesced ∧
    ∀ i j m, (a.request n).1.stateAt i = .Loading m →
      (a.request n).1.stateAt j = .Loading m → i = j := by
  obtain ⟨i, hi, heq⟩ :
      ∃ i, i < a.slots.length ∧
        a.request n = (a.setSlot i ⟨.Loading n, a.frame⟩, .issued) := by
    cases hfree : a.freeSlot with
    | some k => exact ⟨k, (freeSlot_some hfree).1, request_eq_free habs hfree⟩
    | none =>
      cases hev : a.evictionCandidate with
      | some k =>
        exact ⟨k, isEvictableAt_lt (evictionCandidate_some hev).2.1,
          request_eq_evict habs hfree hev⟩
      | none =>
        rcases havail with hc | hc
        · exact absurd hfree hc
        · exact absurd hev hc
  have hWF1 : WF (a.setSlot i ⟨.Loading n, a.frame⟩) := by
    have hw := WF_request (reachable_WF h) n
    rw [heq] at hw
    exact hw
  have hstate1 : (a.setSlot i ⟨.Loading n, a.frame⟩).stateAt i = .Loading n := by
    rw [stateAt_setSlot, if_pos ⟨rfl, hi⟩]
  have hocc1 : (a.setSlot i ⟨.Loading n, a.frame⟩).occAt i = some n :=
    occAt_of_stateAt_loading hstate1
  have hfind1 : (a.setSlot i ⟨.Loading n, a.frame⟩).findSlotOf n = some i := by
    obtain ⟨j, hj⟩ := findSlotOf_isSome hocc1
    have hoccj := (findSlotOf_some hj).2
    have hji := hWF1 j i n hoccj hocc1
    rw [hji] at hj
    exact hj
  have hreq2 := request_eq_loading hfind1 hstate1
  refine ⟨by rw [heq], by rw [heq]; rw [hreq2], by rw [heq]; rw [hreq2], ?_⟩
  intro i' j' m h1 h2
  rw [heq] at h1 h2
  exact hWF1 i' j' m (occAt_of_stateAt_loading h1) (occAt_of_stateAt_loading h2)

/-- Witness for C2 at a fresh one-slot atlas and the node (0, 0, 0). -/
theorem request_twice_coalesced_witness :
    ((NodeAtlas.new 1).request ⟨0, 0, 0⟩).2 = .issued ∧
    (((NodeAtlas.new 1).request ⟨0, 0, 0⟩).1.request ⟨0, 0, 0⟩).1 =
      ((NodeAtlas.new 1).request ⟨0, 0, 0⟩).1 ∧
    (((NodeAtlas.new 1).request ⟨0, 0, 0⟩).1.request ⟨0, 0, 0⟩).2 = .coalesced ∧
    ∀ i j m, ((NodeAtlas.new 1).request ⟨0, 0, 0⟩).1.stateAt i = .Loading m →
      ((NodeAtlas.new 1).request ⟨0, 0, 0⟩).1.stateAt j = .Loading m → i = j :=
  request_twice_coalesced _ _ (Reachable.init 1) (by decide) (Or.inl (by decide))

theorem loadComplete_eq_missing {a : NodeAtlas} {n m : NodeId} {i : Nat}
    (hf : a.findSlotOf n = some i) (hs : a.stateAt i = .Loading m) :
    a.loadComplete n none =
      (a.setSlot i ⟨.Unloaded, a.lastUsedAt i⟩, some (.artifactMissing n)) := by
  unfold loadComplete
  rw [hf]
  split
  · rename_i i' hi'
    cases Option.some.inj hi'
    split
    · rfl
    · rename_i hcon
      exact absurd hs (hcon m)
  · rename_i hnone
    exact Option.noConfusion hnone

/-- C3: when the preprocessed artifact for `n` is missing or corrupt, the
completion of the load for `n` reports a LoadError to the caller, the slot for
`n` reverts to Unloaded, `n` is no longer present in any slot, and no other
slot's state is changed (other nodes' loads are unaffected); the pending queue
is untouched. -/
theorem load_failure_reported_and_atomic (a : NodeAtlas) (n : NodeId) (i : Nat)
    (h : Reachable a) (hload : a.stateAt i = .Loading n) :
    (a.loadComplete n none).2 = some (.artifactMissing n) ∧
    (a.loadComplete n none).1.stateAt i = .Unloaded ∧
    (∀ j, (a.loadComplete n none).1.occAt j ≠ some n) ∧
    (∀ j, j ≠ i → (a.loadComplete n none).1.slotAt j = a.slotAt j) ∧
    (a.loadComplete n none).1.pending = a.pending := by
  have hWF := reachable_WF h
  have hi : i < a.slots.length := stateAt_lt_of_ne (by rw [hload]; intro hx; exact SlotState.noConfusion hx)
  have hocc : a.occAt i = some n := occAt_of_stateAt_loading hload
  have hfind : a.findSlotOf n = some i := by
    obtain ⟨j, hj⟩ := findSlotOf_isSome hocc
    have hoccj := (findSlotOf_some hj).2
    have hji := hWF j i n hoccj hocc
    rw [← hji]
    exact hj
  have hcomp := loadComplete_eq_missing hfind hload
  refine ⟨by rw [hcomp], ?_, ?_, ?_, by rw [hcomp]; rfl⟩
  · rw [hcomp]
    show (a.setSlot i ⟨.Unloaded, a.lastUsedAt i⟩).stateAt i = .Unloaded
    rw [stateAt_setSlot, if_pos ⟨rfl, hi⟩]
  · intro j
    rw [hcomp]
    show (a.setSlot i ⟨.Unloaded, a.lastUsedAt i⟩).occAt j ≠ some n
    rw [occAt_setSlot]
    by_cases hc : i = j ∧ i < a.slots.length
    · rw [if_pos hc]
      intro hx
      exact Option.noConfusion hx
    · rw [if_neg hc]
      intro hx
      have hji := hWF j i n hx hocc
      exact hc ⟨hji.symm, hi⟩
  · intro j hj
    rw [hcomp]
    show (a.setSlot i ⟨.Unloaded, a.lastUsedAt i⟩).slotAt j = a.slotAt j
    rw [slotAt_setSlot, if_neg (fun hc => hj hc.1.symm)]

/-- Witness for C3 at the reachable one-slot atlas whose single slot is
Loading the node (0, 0, 0). -/
theorem load_failure_reported_and_atomic_witness :
    ((((NodeAtlas.new 1).request ⟨0, 0, 0⟩).1).loadComplete ⟨0, 0, 0⟩ none).2 =
      some (.artifactMissing ⟨0, 0, 0⟩) ∧
    ((((NodeAtlas.new 1).request ⟨0, 0, 0⟩).1).loadComplete ⟨0, 0, 0⟩ none).1.stateAt 0 =
      .Unloaded ∧
    (∀ j, ((((NodeAtlas.new 1).request ⟨0, 0, 0⟩).1).loadComplete ⟨0, 0, 0⟩ none).1.occAt j ≠
      some ⟨0, 0, 0⟩) ∧
    (∀ j, j ≠ 0 →
      ((((NodeAtlas.new 1).request ⟨0, 0, 0⟩).1).loadComplete ⟨0, 0, 0⟩ none).1.slotAt j =
        (((NodeAtlas.new 1).request ⟨0, 0, 0⟩).1).slotAt j) ∧
    ((((NodeAtlas.new 1).request ⟨0, 0, 0⟩).1).loadComplete ⟨0, 0, 0⟩ none).1.pending =
      (((NodeAtlas.new 1).request ⟨0, 0, 0⟩).1).pending :=
  load_failure_reported_and_atomic _ _ 0
    (Reachable.request _ _ (Reachable.init 1)) (by decide)

/-- C4: under capacity exhaustion (node absent, no free slot), the slot chosen
for eviction, if any, is an occupied Evictable slot with the oldest last-used
frame among all Evictable slots, and its occupant is never a node of the
current desired set (whose slots are never Evictable under the protocol); the
evicted slot is then reused for the new load.  If no Evictable slot exists,
the request is deferred — not an error — and this is observable through the
pending queue and its count. -/
theorem eviction_policy (a : NodeAtlas) (n : NodeId) (desired : List NodeId)
    (habs : a.findSlotOf n = none) (hfull : a.freeSlot = none)
    (hdes : ∀ d ∈ desired, ∀ j, a.stateAt j ≠ .Evictable d) :
    (∀ i, a.evictionCandidate = some i →
      (∃ m, a.stateAt i = .Evictable m ∧ m ∉ desired) ∧
      (∀ j, a.isEvictableAt j = true → a.lastUsedAt i ≤ a.lastUsedAt j) ∧
      a.request n = (a.setSlot i ⟨.Loading n, a.frame⟩, .issued)) ∧
    (a.evictionCandidate = none →
      (a.request n).2 = .deferred ∧
      (a.request n).1.slots = a.slots ∧
      n ∈ (a.request n).1.pending ∧
      (a.request n).1.pendingCount =
        (if n ∈ a.pending then a.pendingCount else a.pendingCount + 1)) := by
  constructor
  · intro i hev
    obtain ⟨hlt, hevict, hmin⟩ := evictionCandidate_some hev
    obtain ⟨m, hm⟩ := (isEvictableAt_iff a i).mp hevict
    refine ⟨⟨m, hm, fun hmem => hdes m hmem i hm⟩, hmin,
      request_eq_evict habs hfull hev⟩
  · intro hev
    rw [request_eq_defer habs hfull hev]
    by_cases hp : n ∈ a.pending
    · rw [if_pos hp]
      exact ⟨rfl, rfl, hp, by rw [if_pos hp]⟩
    · rw [if_neg hp]
      refine ⟨rfl, rfl, List.mem_append_right _ (List.mem_singleton.mpr rfl), ?_⟩
      rw [if_neg hp]
      simp [pendingCount]

/-- Witness for C4 at a full one-slot atlas whose slot is Evictable, with an
empty desired set. -/
theorem eviction_policy_witness :
    (∀ i, ((((NodeAtlas.new 1).request ⟨0, 0, 0⟩).1.loadComplete ⟨0, 0, 0⟩
        (some 7)).1.release ⟨0, 0, 0⟩).evictionCandidate = some i →
      (∃ m, ((((NodeAtlas.new 1).request ⟨0, 0, 0⟩).1.loadComplete ⟨0, 0, 0⟩
          (some 7)).1.release ⟨0, 0, 0⟩).stateAt i = .Evictable m ∧ m ∉ ([] : List NodeId)) ∧
      (∀ j, ((((NodeAtlas.new 1).request ⟨0, 0, 0⟩).1.loadComplete ⟨0, 0, 0⟩
          (some 7)).1.release ⟨0, 0, 0⟩).isEvictableAt j = true →
        ((((NodeAtlas.new 1).request ⟨0, 0, 0⟩).1.loadComplete ⟨0, 0, 0⟩
          (some 7)).1.release ⟨0, 0, 0⟩).lastUsedAt i ≤
        ((((NodeAtlas.new 1).request ⟨0, 0, 0⟩).1.loadComplete ⟨0, 0, 0⟩
          (some 7)).1.release ⟨0, 0, 0⟩).lastUsedAt j) ∧
      ((((NodeAtlas.new 1).request ⟨0, 0, 0⟩).1.loadComplete ⟨0, 0, 0⟩
          (some 7)).1.release ⟨0, 0, 0⟩).request ⟨1, 0, 0⟩ =
        (((((NodeAtlas.new 1).request ⟨0, 0, 0⟩).1.loadComplete ⟨0, 0, 0⟩
          (some 7)).1.release ⟨0, 0, 0⟩).setSlot i
            ⟨.Loading ⟨1, 0, 0⟩, ((((NodeAtlas.new 1).request ⟨0, 0, 0⟩).1.loadComplete
              ⟨0, 0, 0⟩ (some 7)).1.release ⟨0, 0, 0⟩).frame⟩, .issued)) ∧
    (((((NodeAtlas.new 1).request ⟨0, 0, 0⟩).1.loadComplete ⟨0, 0, 0⟩
        (some 7)).1.release ⟨0, 0, 0⟩).evictionCandidate = none →
      (((((NodeAtlas.new 1).request ⟨0, 0, 0⟩).1.loadComplete ⟨0, 0, 0⟩
          (some 7)).1.release ⟨0, 0, 0⟩).request ⟨1, 0, 0⟩).2 = .deferred ∧
      (((((NodeAtlas.new 1).request ⟨0, 0, 0⟩).1.loadComplete ⟨0, 0, 0⟩
          (some 7)).1.release ⟨0, 0, 0⟩).request ⟨1, 0, 0⟩).1.slots =
        ((((NodeAtlas.new 1).request ⟨0, 0, 0⟩).1.loadComplete ⟨0, 0, 0⟩
          (some 7)).1.release ⟨0, 0, 0⟩).slots ∧
      (⟨1, 0, 0⟩ : NodeId) ∈ (((((NodeAtlas.new 1).request ⟨0, 0, 0⟩).1.loadComplete
          ⟨0, 0, 0⟩ (some 7)).1.release ⟨0, 0, 0⟩).request ⟨1, 0, 0⟩).1.pending ∧
      (((((NodeAtlas.new 1).request ⟨0, 0, 0⟩).1.loadComplete ⟨0, 0, 0⟩
          (some 7)).1.release ⟨0, 0, 0⟩).request ⟨1, 0, 0⟩).1.pendingCount =
        (if (⟨1, 0, 0⟩ : NodeId) ∈ ((((NodeAtlas.new 1).request ⟨0, 0, 0⟩).1.loadComplete
            ⟨0, 0, 0⟩ (some 7)).1.release ⟨0, 0, 0⟩).pending then
          ((((NodeAtlas.new 1).request ⟨0, 0, 0⟩).1.loadComplete ⟨0, 0, 0⟩
            (some 7)).1.release ⟨0, 0, 0⟩).pendingCount
        else
          ((((NodeAtlas.new 1).request ⟨0, 0, 0⟩).1.loadComplete ⟨0, 0, 0⟩
            (some 7)).1.release ⟨0, 0, 0⟩).pendingCount + 1)) :=
  eviction_policy _ _ [] (by decide) (by decide) (by simp)

end NodeAtlas

theorem traverse_level_budget_bound (split extraRefine : QNode → Bool) :
    ∀ (k : Nat) (q : QNode), q.lod.toNat ≤ k → 0 ≤ q.lod →
      ∀ (budget used : Nat) (p : QNode) (u : Nat),
        (p, u) ∈ traverse split extraRefine q budget used →
        0 ≤ p.lod ∧ p.lod ≤ q.lod ∧ u ≤ used + budget := by
  intro k
  induction k with
  | zero =>
    intro q hk hq budget used p u hmem
    rw [traverse] at hmem
    rw [dif_neg (fun hcon : 0 < q.lod ∧ _ => by omega)] at hmem
    simp only [List.mem_singleton, Prod.mk.injEq] at hmem
    obtain ⟨hp, hu⟩ := hmem
    subst hp
    subst hu
    exact ⟨hq, le_refl _, by omega⟩
  | succ k ih =>
    intro q hk hq budget used p u hmem
    rw [traverse] at hmem
    by_cases hcond :
        0 < q.lod ∧ (split q = true ∨ (extraRefine q = true ∧ 0 < budget))
    · rw [dif_pos hcond] at hmem
      have hchild : ∀ (cx cy : Int),
          (p, u) ∈ traverse split extraRefine ⟨q.lod - 1, cx, cy⟩
            (if split q then budget else budget - 1)
            (if split q then used else used + 1) →
          0 ≤ p.lod ∧ p.lod ≤ q.lod ∧ u ≤ used + budget := by
        intro cx cy hm
        have hb := ih ⟨q.lod - 1, cx, cy⟩
          (by show (q.lod - 1).toNat ≤ k; omega)
          (by show (0 : Int) ≤ q.lod - 1; omega) _ _ p u hm
        have h2 : p.lod ≤ q.lod - 1 := hb.2.1
        refine ⟨hb.1, by omega, ?_⟩
        have h3 := hb.2.2
        by_cases hsplit : split q = true
        · rw [if_pos hsplit, if_pos hsplit] at h3
          omega
        · rw [if_neg hsplit, if_neg hsplit] at h3
          rcases hcond.2 with hc | hc
          · exact absurd hc hsplit
          · omega
      simp only [List.mem_cons, List.mem_append, Prod.mk.injEq] at hmem
      rcases hmem with ⟨hp, hu⟩ | ((hm | hm) | hm) | hm
      · subst hp
        subst hu
        exact ⟨hq, le_refl _, by omega⟩
      · exact hchild _ _ hm
      · exact hchild _ _ hm
      · exact hchild _ _ hm
      · exact hchild _ _ hm
    · rw [dif_neg hcond] at hmem
      simp only [List.mem_singleton, Prod.mk.injEq] at hmem
      obtain ⟨hp, hu⟩ := hmem
      subst hp
      subst hu
      exact ⟨hq, le_refl _, by omega⟩

/-- C5: one quadtree traversal is a total, terminating function; for every
viewer position and configuration (every split decision), every node it
visits has level between 0 and the root's level — hence never below 0 and
never above LOD_COUNT when started at the configured root — and the
additional-refinement depth spent on any visited node never exceeds the
configured cap. -/
theorem quadtree_traversal_bounded (split extraRefine : QNode → Bool)
    (root : QNode) (cap : Nat) (hroot : 0 ≤ root.lod)
    (hlod : root.lod ≤ (AppConfig.LOD_COUNT : Int)) :
    ∀ p u, (p, u) ∈ traverse split extraRefine root cap 0 →
      (0 ≤ p.lod ∧ p.lod ≤ root.lod ∧ p.lod ≤ (AppConfig.LOD_COUNT : Int)) ∧
      u ≤ cap := by
  intro p u hmem
  have h := traverse_level_budget_bound split extraRefine root.lod.toNat root
    le_rfl hroot cap 0 p u hmem
  exact ⟨⟨h.1, h.2.1, le_trans h.2.1 hlod⟩, by omega⟩

/-- Witness for C5 at a concrete root and the additional-refinement cap 0
used by `setup`, instantiated at the root node itself. -/
theorem quadtree_traversal_bounded_witness :
    (0 ≤ (⟨1, 0, 0⟩ : QNode).lod ∧
      (⟨1, 0, 0⟩ : QNode).lod ≤ (⟨1, 0, 0⟩ : QNode).lod ∧
      (⟨1, 0, 0⟩ : QNode).lod ≤ (AppConfig.LOD_COUNT : Int)) ∧ (0 : Nat) ≤ 0 :=
  quadtree_traversal_bounded (fun _ => false) (fun _ => false) ⟨1, 0, 0⟩ 0
    (by decide) (by decide) ⟨1, 0, 0⟩ 0 (by simp [traverse])

/-- C6: preprocessing is idempotent — re-running `preprocess` over the disk it
already produced reproduces the identical state, and two runs from disks with
the same (unchanged) source inputs produce identical artifact stores. -/
theorem preprocess_idempotent (cfg : TerrainConfig) (d d' : Disk)
    (hsrc : d.source = d'.source) :
    preprocess cfg (preprocess cfg d) = preprocess cfg d ∧
    (preprocess cfg d).artifacts = (preprocess cfg d').artifacts := by
  refine ⟨rfl, ?_⟩
  show generate cfg d.source = generate cfg d'.source
  rw [hsrc]

/-- Witness for C6 at a concrete configuration and disk. -/
theorem preprocess_idempotent_witness :
    preprocess ⟨2, ⟨128, 2⟩⟩
        (preprocess ⟨2, ⟨128, 2⟩⟩ ⟨fun _ => none, fun _ _ _ => none⟩) =
      preprocess ⟨2, ⟨128, 2⟩⟩ ⟨fun _ => none, fun _ _ _ => none⟩ ∧
    (preprocess ⟨2, ⟨128, 2⟩⟩ ⟨fun _ => none, fun _ _ _ => none⟩).artifacts =
      (preprocess ⟨2, ⟨128, 2⟩⟩ ⟨fun _ => none, fun _ _ _ => none⟩).artifacts :=
  preprocess_idempotent _ _ _ rfl

/-- C7: the border padding on the finest level is `1 << MIP_LEVEL_COUNT` = 16
pixels, and the usable leaf node size is `TEXTURE_SIZE - (1 << MIP_LEVEL_COUNT)`
= 512 - 16 = 496, exactly as `setup` computes it. -/
theorem leaf_node_size_is_496 :
    AppConfig.finest_border = 16 ∧
    AppConfig.leaf_node_size = AppConfig.TEXTURE_SIZE - AppConfig.finest_border ∧
    AppConfig.leaf_node_size = 496 ∧
    AppConfig.TEXTURE_SIZE = 512 ∧ AppConfig.MIP_LEVEL_COUNT = 4 := by
  decide

/-- C8: the per-LOD view-distance thresholds strictly increase with the LOD
index — every entry of the default table grows with the index, and the
spec's level-scaled threshold is strictly monotone in the level for any
positive per-view view distance. -/
theorem lod_thresholds_increase (lodLevels i j : Nat) (vd : ℚ)
    (hvd : 0 < vd) (hij : i < j) (hj : j < lodLevels) :
    (lodViewDistanceTable lodLevels).getD i 0 <
      (lodViewDistanceTable lodLevels).getD j 0 ∧
    scaledViewDistance vd i < scaledViewDistance vd j := by
  have hk : ∀ k, k < lodLevels →
      (lodViewDistanceTable lodLevels).getD k (0 : ℚ) = 200 + (k : ℚ) * 100 := by
    intro k hkl
    unfold lodViewDistanceTable
    rw [List.getD_eq_getElem?_getD, List.getElem?_map, List.getElem?_range hkl]
    rfl
  constructor
  · rw [hk i (lt_trans hij hj), hk j hj]
    have hc : (i : ℚ) < (j : ℚ) := by exact_mod_cast hij
    linarith
  · unfold scaledViewDistance
    have h2 : (2 : ℚ) ^ i < 2 ^ j := by
      apply pow_lt_pow_right₀ ?_ hij
      norm_num
    exact mul_lt_mul_of_pos_left h2 hvd

/-- Witness for C8 at indices 1 < 3 of an 8-level table and the view distance
4 * 496 configured in `setup`. -/
theorem lod_thresholds_increase_witness :
    (lodViewDistanceTable 8).getD 1 0 < (lodViewDistanceTable 8).getD 3 0 ∧
    scaledViewDistance AppConfig.view_distance 1 <
      scaledViewDistance AppConfig.view_distance 3 :=
  lod_thresholds_increase 8 1 3 AppConfig.view_distance
    (by norm_num [AppConfig.view_distance, AppConfig.leaf_node_size,
      AppConfig.TEXTURE_SIZE, AppConfig.MIP_LEVEL_COUNT, Nat.shiftLeft_eq])
    (by norm_num) (by norm_num)

/-- C9: for every HeightCurve with water_level < 1.0, evaluate never divides
by zero: every input yields a value, inputs strictly below water_level return
0.0 before the division is reached, and — the guard being absent from the
code itself — dropping the precondition does reach the division by zero
(water_level = 1.0 with input ≥ water_level). -/
theorem heightCurve_no_div_by_zero (hc : HeightCurve)
    (h : hc.water_level < 1) :
    (∀ powf input, (HeightCurve.evaluate powf hc input).isSome = true) ∧
    (∀ powf input, input < hc.water_level →
      HeightCurve.evaluate powf hc input = some 0) ∧
    (∀ powf, HeightCurve.evaluate powf ⟨1, 2⟩ 1 = none) := by
  refine ⟨?_, ?_, ?_⟩
  · intro powf input
    unfold HeightCurve.evaluate
    by_cases hin : input < hc.water_level
    · rw [if_pos hin]
      rfl
    · rw [if_neg hin]
      unfold checkedDiv
      have hnz : ¬(1 - hc.water_level = 0) := by
        intro hz
        have h1 : hc.water_level = 1 := by linarith
        rw [h1] at h
        exact lt_irrefl 1 h
      rw [if_neg hnz]
      rfl
  · intro powf input hin
    unfold HeightCurve.evaluate
    rw [if_pos hin]
  · intro powf
    unfold HeightCurve.evaluate checkedDiv
    norm_num

/-- Witness for C9 at the height curve with water_level 1/2 and slope 2. -/
theorem heightCurve_no_div_by_zero_witness :
    (∀ powf input,
      (HeightCurve.evaluate powf ⟨1 / 2, 2⟩ input).isSome = true) ∧
    (∀ powf input, input < (⟨1 / 2, 2⟩ : HeightCurve).water_level →
      HeightCurve.evaluate powf ⟨1 / 2, 2⟩ input = some 0) ∧
    (∀ powf, HeightCurve.evaluate powf ⟨1, 2⟩ 1 = none) :=
  heightCurve_no_div_by_zero ⟨1 / 2, 2⟩ (by norm_num)

/-- C10: if the mesh's GPU asset is absent, DrawTerrainCommand::render
returns Failure with the pass untouched (no command recorded); otherwise it
returns Success, its first two commands bind the mesh vertex buffer (slot 0)
and the terrain instance buffer (slot 1), and it records exactly one draw
call, which is instanced over GpuTerrainData.length instances. -/
theorem drawTerrain_render_behavior (m : GpuMesh) (tb : GpuTerrainData) :
    DrawTerrainCommand.render none tb = ([], .Failure) ∧
    (DrawTerrainCommand.render (some m) tb).2 = .Success ∧
    (DrawTerrainCommand.render (some m) tb).1.take 2 =
      [.setVertexBuffer 0 m.vertex_buffer, .setVertexBuffer 1 tb.buffer] ∧
    (DrawTerrainCommand.render (some m) tb).1.countP (fun c => c.isDraw) = 1 ∧
    (DrawTerrainCommand.render (some m) tb).1.countP
      (fun c => c.isDrawWithInstances tb.length) = 1 := by
  obtain ⟨vb, bi⟩ := m
  cases bi <;>
    simp [DrawTerrainCommand.render, List.countP_cons, PassCmd.isDraw,
      PassCmd.isDrawWithInstances]

end TerrainRendering
